import Mathlib

/-!
Verification of the undelivered-message queue and pickup protocol handlers
of the acapy-plugin-pickup repository.

The Redis-backed persisted queue (`undelivered_queue/redis_persisted_queue.py`)
is embedded shallowly: the Redis database is a pair of maps, a per-key sorted
set (the ordered index of message identifiers, scored by enqueue time) and a
global payload table keyed by message identifier alone (note: the code keys
payloads by the bare identifier, not by `recipient_key:identifier` as its own
class docstring describes).  Each operation of `RedisUndeliveredQueue` becomes
a state-passing Lean function; `time.time()` becomes an explicit `now`
argument, and the configured `ttl_seconds` an explicit `ttl` argument.
Physical reclamation of entries by the Redis server itself is not modelled:
the theorems quantify over arbitrary states, which subsumes any state physical
expiry could produce, and the claims under study concern the logical
`expire_helper` sweep the code performs on every read.

The message identifier function (`base.py: message_id_for_outbound`, a
base58-encoded sha256 digest) is modelled as an explicit parameter
`identFn : Msg → Ident`: the code relies only on it being a pure deterministic
function of the payload bytes, which the parameterisation captures exactly.
-/

namespace Pickup

/-- Message identifiers (base58-encoded digests in the code) are strings. -/
abbrev Ident := String

/-- Opaque encrypted payload bytes, modelled as a string. -/
abbrev Msg := String

/-- The Redis database as the queue uses it: `index k` is the sorted set
stored at key `k` (member, score) ordered by (score, member) ascending, and
`payload i` is the value stored at key `i` by `setex` (the payload table). -/
structure RedisState where
  index : String → List (Ident × Nat)
  payload : Ident → Option Msg

/-- The empty database. -/
def emptyState : RedisState :=
  { index := fun _ => [], payload := fun _ => none }

/-- Insertion into a Redis sorted set keeps (score, member) order. -/
def insertByScore : List (Ident × Nat) → Ident → Nat → List (Ident × Nat)
  | [], m, sc => [(m, sc)]
  | e :: rest, m, sc =>
    if sc < e.2 ∨ (sc = e.2 ∧ m < e.1) then (m, sc) :: e :: rest
    else e :: insertByScore rest m sc

/-- `ZADD key NX {member: score}`: add only if the member is absent; an
existing member keeps its score and position. -/
def zaddNX (l : List (Ident × Nat)) (member : Ident) (score : Nat) :
    List (Ident × Nat) :=
  if l.any (fun e => e.1 = member) then l else insertByScore l member score

/-- `ZRANGE key start stop` (by rank), returning the selected entries.
Negative indices count from the end; out-of-range indices are clamped. -/
def zrangeEntries (l : List (Ident × Nat)) (start stop : Int) :
    List (Ident × Nat) :=
  let n : Int := l.length
  let a : Int := max (if start < 0 then n + start else start) 0
  let b : Int := min (if stop < 0 then n + stop else stop) (n - 1)
  if b < a then [] else (l.drop a.toNat).take (b - a + 1).toNat

/-- `ZRANGE key start stop` as the Redis client returns it: members only. -/
def zrange (l : List (Ident × Nat)) (start stop : Int) : List Ident :=
  (zrangeEntries l start stop).map Prod.fst

/-- `ZRANGE key mn mx BYSCORE`: members whose score lies in `[mn, mx]`. -/
def zrangeByScore (l : List (Ident × Nat)) (mn mx : Int) : List Ident :=
  (l.filter (fun e => decide (mn ≤ (e.2 : Int)) && decide ((e.2 : Int) ≤ mx))).map
    Prod.fst

/-- `ZREM key members`: drop the listed members from the sorted set. -/
def zremList (l : List (Ident × Nat)) (members : List Ident) :
    List (Ident × Nat) :=
  l.filter (fun e => !(members.contains e.1))

namespace RedisUndeliveredQueue

/-- `RedisUndeliveredQueue.__init__`: a non-positive `ttl_seconds` raises
`ValueError`; `None` falls back to `60 * 60 * 24 * 3` seconds (three days). -/
def init (ttl_seconds : Option Int) : Except String Int :=
  match ttl_seconds with
  | some t =>
    if t ≤ 0 then Except.error "Time to live must be a positive integer"
    else Except.ok t
  | none => Except.ok (60 * 60 * 24 * 3)

/-- `expire_helper`: sweep the key's index of entries whose score is in
`[0, now - ttl]`, removing them from the index (`zrem`) when any exist. -/
def expire_helper (s : RedisState) (key : String) (ttl now : Nat) :
    RedisState :=
  let expired := zrangeByScore (s.index key) 0 ((now : Int) - (ttl : Int))
  if expired.isEmpty then s
  else
    { s with
      index := fun k => if k = key then zremList (s.index key) expired
        else s.index k }

/-- `add_message`: `zadd` the identifier with score `now` only if absent
(`nx=True`), refresh the index TTL (physical expiry not modelled), and
`setex` the payload at the bare identifier key. -/
def add_message (identFn : Msg → Ident) (s : RedisState)
    (recipient_key : String) (msg : Msg) (now : Nat) : RedisState :=
  let msg_ident := identFn msg
  { index := fun k =>
      if k = recipient_key then zaddNX (s.index recipient_key) msg_ident now
      else s.index k,
    payload := fun i => if i = msg_ident then some msg else s.payload i }

/-- `has_message_for_key`: sweep, then test `zrange key 0 0` for emptiness. -/
def has_message_for_key (s : RedisState) (recipient_key : String)
    (ttl now : Nat) : Bool × RedisState :=
  let s1 := expire_helper s recipient_key ttl now
  (!(zrange (s1.index recipient_key) 0 0).isEmpty, s1)

/-- `message_count_for_key`: sweep, then `zcard`. -/
def message_count_for_key (s : RedisState) (key : String) (ttl now : Nat) :
    Nat × RedisState :=
  let s1 := expire_helper s key ttl now
  ((s1.index key).length, s1)

/-- `get_messages_for_key`: sweep, `zrange key 0 (count - 1)`, `mget` the
identifiers, and keep only the non-`None` payloads. -/
def get_messages_for_key (s : RedisState) (recipient_key : String)
    (count : Int) (ttl now : Nat) : List Msg × RedisState :=
  let s1 := expire_helper s recipient_key ttl now
  let msg_idents := zrange (s1.index recipient_key) 0 (count - 1)
  let msgs := msg_idents.map s1.payload
  (msgs.reduceOption, s1)

/-- `inspect_all_messages_for_key`: sweep, `zrange key 0 -1`, `mget` when the
range is non-empty, and return the raw `mget` result — `None` entries for
reclaimed payloads are NOT filtered out here, unlike `get_messages_for_key`. -/
def inspect_all_messages_for_key (s : RedisState) (recipient_key : String)
    (ttl now : Nat) : List (Option Msg) × RedisState :=
  let s1 := expire_helper s recipient_key ttl now
  let msg_idents := zrange (s1.index recipient_key) 0 (-1)
  let msgs := if msg_idents.isEmpty then [] else msg_idents.map s1.payload
  (msgs, s1)

/-- `remove_messages_for_key`: sweep, intersect the supplied identifiers with
the members currently in the key's index, and if the intersection is
non-empty `zrem` them from the index and `delete` their payload-table entries
(the payload keys are global, not scoped to the recipient key). -/
def remove_messages_for_key (s : RedisState) (recipient_key : String)
    (msg_idents : List Ident) (ttl now : Nat) : RedisState :=
  let s1 := expire_helper s recipient_key ttl now
  let known := zrange (s1.index recipient_key) 0 (-1)
  let intersection := known.filter (fun i => msg_idents.contains i)
  if intersection.isEmpty then s1
  else
    { index := fun k =>
        if k = recipient_key then zremList (s1.index recipient_key) intersection
        else s1.index k,
      payload := fun i => if intersection.contains i then none
        else s1.payload i }

end RedisUndeliveredQueue

/-! Protocol layer (`protocol/delivery.py`).  The handlers are embedded as
state-passing functions returning `Except`: raising `HandlerException`
becomes `Except.error`, in which case no reply is produced and the store is
untouched.  The transport decorator and the thread correlation identifier of
`AgentMessage` are carried as explicit fields; the sender's verification key
(`context.message_receipt.sender_verkey`) is an explicit argument. -/

/-- The `~transport` decorator, reduced to the one field the handlers read. -/
structure Transport where
  return_route : String

/-- `DeliveryRequest` message: `limit` is declared `conint(gt=0)` by the
pydantic model; `thread` is the correlation identifier that
`assign_thread_from` copies onto the reply. -/
structure DeliveryRequest where
  limit : Int
  recipient_key : Option String
  transport : Option Transport
  thread : String

/-- `MessagesReceived` message with its claimed identifier set. -/
structure MessagesReceived where
  message_id_list : List Ident
  transport : Option Transport
  thread : String

/-- An attachment as built by `Attach.data_base64(ident=..., value=...)`. -/
structure Attach where
  id : Ident
  data : Msg

/-- The two replies the handlers can send. -/
inductive Reply where
  | delivery (recipient_key : Option String) (message_attachments : List Attach)
      (thread : String)
  | status (recipient_key : Option String) (message_count : Nat)
      (thread : String)

/-- The return-route precondition both handlers test:
`not self.transport or self.transport.return_route != "all"` fails. -/
def returnRouteOk : Option Transport → Bool
  | some t => t.return_route = "all"
  | none => false

/-- `DeliveryRequest.handle`: enforce the return route, then either reply
with a `Delivery` carrying up to `limit` attachments (when
`has_message_for_key` is true) or a zero-count `Status` echoing the optional
`recipient_key`. -/
def DeliveryRequest.handle (identFn : Msg → Ident) (req : DeliveryRequest)
    (sender_verkey : String) (s : RedisState) (ttl now : Nat) :
    Except String (Reply × RedisState) :=
  if returnRouteOk req.transport then
    let hasP := RedisUndeliveredQueue.has_message_for_key s sender_verkey ttl now
    if hasP.1 then
      let getP := RedisUndeliveredQueue.get_messages_for_key hasP.2
        sender_verkey req.limit ttl now
      let message_attachments := getP.1.map (fun m => Attach.mk (identFn m) m)
      Except.ok (Reply.delivery none message_attachments req.thread, getP.2)
    else
      Except.ok (Reply.status req.recipient_key 0 req.thread, hasP.2)
  else
    Except.error
      "DeliveryRequest must have transport decorator with return route set to all"

/-- `MessagesReceived.handle`: enforce the return route; when the mailbox is
non-empty remove the claimed identifiers; always reply with a `Status`
carrying the key's current message count. -/
def MessagesReceived.handle (req : MessagesReceived) (sender_verkey : String)
    (s : RedisState) (ttl now : Nat) : Except String (Reply × RedisState) :=
  if returnRouteOk req.transport then
    let hasP := RedisUndeliveredQueue.has_message_for_key s sender_verkey ttl now
    let s2 := if hasP.1 then
        RedisUndeliveredQueue.remove_messages_for_key hasP.2 sender_verkey
          req.message_id_list ttl now
      else hasP.2
    let cntP := RedisUndeliveredQueue.message_count_for_key s2 sender_verkey ttl now
    Except.ok (Reply.status none cntP.1 req.thread, cntP.2)
  else
    Except.error
      "MessageReceived must have transport decorator with return route set to all"

/-- Payload-table coherence: every stored payload hashes back to the key it
is stored under.  This holds for every state the queue operations can build,
since `add_message` stores `msg` at key `identFn msg`. -/
def Coherent (identFn : Msg → Ident) (s : RedisState) : Prop :=
  ∀ i m, s.payload i = some m → identFn m = i

/-! Concrete scenario states used to evaluate the operations at specific
inputs.  The identifier function is instantiated with the identity map, a
pure deterministic function of the payload as the contract requires. -/

/-- A concrete identifier function for evaluation at specific inputs. -/
def sampleIdent : Msg → Ident := fun m => m

/-- The payload "m" enqueued under the two distinct keys "k1" and "k2". -/
def twoKeyState : RedisState :=
  RedisUndeliveredQueue.add_message sampleIdent
    (RedisUndeliveredQueue.add_message sampleIdent emptyState "k1" "m" 0)
    "k2" "m" 0

/-- State after acknowledging the message under "k1" only. -/
def twoKeyRemoved : RedisState :=
  RedisUndeliveredQueue.remove_messages_for_key twoKeyState "k1" ["m"] 10 0

/-- A store whose index for key "k" holds the identifier "i" while the
payload table holds nothing for it. -/
def danglingState : RedisState :=
  { index := fun k => if k = "k" then [("i", 0)] else [],
    payload := fun _ => none }

/-- Two messages enqueued under key "k": "a" at time 0, then "b" at 1. -/
def twoMsgState : RedisState :=
  RedisUndeliveredQueue.add_message sampleIdent
    (RedisUndeliveredQueue.add_message sampleIdent emptyState "k" "a" 0)
    "k" "b" 1

/-! Helper lemmas about the Redis primitives and the expiry sweep. -/

theorem payload_expire_helper (s : RedisState) (k : String) (ttl now : Nat) :
    (RedisUndeliveredQueue.expire_helper s k ttl now).payload = s.payload := by
  unfold RedisUndeliveredQueue.expire_helper
  dsimp only
  split <;> rfl

theorem mem_zrangeByScore {l : List (Ident × Nat)} {mn mx : Int} {i : Ident} :
    i ∈ zrangeByScore l mn mx ↔
      ∃ sc, (i, sc) ∈ l ∧ mn ≤ (sc : Int) ∧ (sc : Int) ≤ mx := by
  simp only [zrangeByScore, List.mem_map, List.mem_filter, Bool.and_eq_true,
    decide_eq_true_eq]
  constructor
  · rintro ⟨⟨a, b⟩, ⟨hmem, h1, h2⟩, rfl⟩
    exact ⟨b, hmem, h1, h2⟩
  · rintro ⟨sc, hmem, h1, h2⟩
    exact ⟨(i, sc), ⟨hmem, h1, h2⟩, rfl⟩

theorem mem_zremList {l : List (Ident × Nat)} {ms : List Ident}
    {e : Ident × Nat} : e ∈ zremList l ms ↔ e ∈ l ∧ e.1 ∉ ms := by
  simp [zremList, List.mem_filter]

theorem zrangeEntries_full (l : List (Ident × Nat)) :
    zrangeEntries l 0 (-1) = l := by
  unfold zrangeEntries
  rcases l with _ | ⟨e, t⟩
  · rfl
  · norm_num

theorem zrange_full (l : List (Ident × Nat)) :
    zrange l 0 (-1) = l.map Prod.fst := by
  rw [zrange, zrangeEntries_full]

theorem zrangeEntries_sublist (l : List (Ident × Nat)) (a b : Int) :
    List.Sublist (zrangeEntries l a b) l := by
  unfold zrangeEntries
  dsimp only
  repeat' split
  all_goals
    first
      | exact List.nil_sublist l
      | exact (List.take_sublist _ _).trans (List.drop_sublist _ _)

theorem index_expire_helper_sublist (s : RedisState) (k : String)
    (ttl now : Nat) :
    List.Sublist ((RedisUndeliveredQueue.expire_helper s k ttl now).index k)
      (s.index k) := by
  unfold RedisUndeliveredQueue.expire_helper
  dsimp only
  split
  · exact List.Sublist.refl _
  · simp only [if_pos rfl]
    exact List.filter_sublist _

theorem mem_index_expire_helper {s : RedisState} {k : String} {ttl now : Nat}
    {e : Ident × Nat}
    (h : e ∈ (RedisUndeliveredQueue.expire_helper s k ttl now).index k) :
    e ∈ s.index k ∧ (now : Int) - (ttl : Int) < (e.2 : Int) := by
  unfold RedisUndeliveredQueue.expire_helper at h
  dsimp only at h
  split at h
  case isTrue hemp =>
    refine ⟨h, ?_⟩
    by_contra hle
    push_neg at hle
    have hmem : e.1 ∈ zrangeByScore (s.index k) 0 ((now : Int) - (ttl : Int)) :=
      mem_zrangeByScore.mpr ⟨e.2, h, by omega, hle⟩
    rw [List.isEmpty_iff] at hemp
    rw [hemp] at hmem
    exact absurd hmem (List.not_mem_nil _)
  case isFalse hemp =>
    simp only [if_pos rfl] at h
    rcases mem_zremList.mp h with ⟨hmem, hnot⟩
    refine ⟨hmem, ?_⟩
    by_contra hle
    push_neg at hle
    exact hnot (mem_zrangeByScore.mpr ⟨e.2, hmem, by omega, hle⟩)

theorem expire_helper_of_empty {s : RedisState} {k : String} {ttl now : Nat}
    (h : zrangeByScore (s.index k) 0 ((now : Int) - (ttl : Int)) = []) :
    RedisUndeliveredQueue.expire_helper s k ttl now = s := by
  unfold RedisUndeliveredQueue.expire_helper
  dsimp only
  rw [h]
  rfl

theorem expire_helper_idem (s : RedisState) (k : String) (ttl now : Nat) :
    RedisUndeliveredQueue.expire_helper
        (RedisUndeliveredQueue.expire_helper s k ttl now) k ttl now =
      RedisUndeliveredQueue.expire_helper s k ttl now := by
  apply expire_helper_of_empty
  rw [zrangeByScore, List.map_eq_nil_iff, List.filter_eq_nil_iff]
  intro e he
  have := (mem_index_expire_helper he).2
  simp only [Bool.and_eq_true, decide_eq_true_eq, not_and]
  intro _
  omega

theorem mem_insertByScore {l : List (Ident × Nat)} {m : Ident} {sc : Nat}
    {e : Ident × Nat} (h : e ∈ insertByScore l m sc) :
    e ∈ l ∨ e = (m, sc) := by
  induction l with
  | nil =>
    simp only [insertByScore, List.mem_singleton] at h
    exact Or.inr h
  | cons a t ih =>
    rw [insertByScore] at h
    split at h
    · rcases List.mem_cons.mp h with h1 | h1
      · exact Or.inr h1
      · exact Or.inl h1
    · rcases List.mem_cons.mp h with h1 | h1
      · exact Or.inl (List.mem_cons.mpr (Or.inl h1))
      · rcases ih h1 with h2 | h2
        · exact Or.inl (List.mem_cons.mpr (Or.inr h2))
        · exact Or.inr h2

theorem mem_zaddNX {l : List (Ident × Nat)} {m : Ident} {sc : Nat}
    {e : Ident × Nat} (h : e ∈ zaddNX l m sc) : e ∈ l ∨ e = (m, sc) := by
  rw [zaddNX] at h
  split at h
  · exact Or.inl h
  · exact mem_insertByScore h

theorem zrangeEntries_zero (l : List (Ident × Nat)) (stop : Int)
    (h : 0 ≤ stop) :
    zrangeEntries l 0 stop =
      l.take (min (stop + 1) (l.length : Int)).toNat := by
  unfold zrangeEntries
  dsimp only
  rw [if_neg (show ¬ ((0 : Int) < 0) by norm_num), if_neg (not_lt.mpr h)]
  simp only [max_self]
  by_cases hb : min stop ((l.length : Int) - 1) < 0
  · rw [if_pos hb]
    have hl0 : l.length = 0 := by
      rcases min_cases stop ((l.length : Int) - 1) with ⟨hmin, hle⟩ | ⟨hmin, hlt⟩ <;>
        rw [hmin] at hb <;> omega
    rw [List.length_eq_zero.mp hl0]
    simp
  · rw [if_neg hb]
    have h1 : min stop ((l.length : Int) - 1) - 0 + 1 =
        min (stop + 1) (l.length : Int) := by
      rcases le_total stop ((l.length : Int) - 1) with hc | hc
      · rw [min_eq_left hc, min_eq_left (by omega)]
        omega
      · rw [min_eq_right hc, min_eq_right (by omega)]
        omega
    simp only [Int.toNat_zero, List.drop_zero, h1]

theorem index_remove (s : RedisState) (k : String) (ids : List Ident)
    (S now : Nat) :
    (RedisUndeliveredQueue.remove_messages_for_key s k ids S now).index k =
      zremList ((RedisUndeliveredQueue.expire_helper s k S now).index k)
        ((zrange ((RedisUndeliveredQueue.expire_helper s k S now).index k)
          0 (-1)).filter (fun i => ids.contains i)) := by
  unfold RedisUndeliveredQueue.remove_messages_for_key
  dsimp only
  split
  case isTrue h =>
    rw [List.isEmpty_iff] at h
    rw [h]
    simp [zremList]
  case isFalse h =>
    simp

theorem remove_eq_of_noop {s : RedisState} {k : String} {ids : List Ident}
    {S now : Nat} (h1 : RedisUndeliveredQueue.expire_helper s k S now = s)
    (h2 : (zrange (s.index k) 0 (-1)).filter (fun i => ids.contains i) = []) :
    RedisUndeliveredQueue.remove_messages_for_key s k ids S now = s := by
  unfold RedisUndeliveredQueue.remove_messages_for_key
  dsimp only
  rw [h1, h2]
  rfl

theorem message_count_stable (s : RedisState) (k : String) (S now : Nat) :
    (RedisUndeliveredQueue.message_count_for_key
        ((RedisUndeliveredQueue.message_count_for_key s k S now).2) k S now).1 =
      (RedisUndeliveredQueue.message_count_for_key s k S now).1 := by
  unfold RedisUndeliveredQueue.message_count_for_key
  dsimp only
  rw [expire_helper_idem]

theorem map_fst_filterMap_payload (pl : Ident → Option Msg)
    (entries : List (Ident × Nat)) :
    ((entries.filterMap
        (fun e => (pl e.1).map (fun mm => (mm, e.2)))).map Prod.fst) =
      (entries.map (fun e => pl e.1)).reduceOption := by
  induction entries with
  | nil => rfl
  | cons e t ih =>
    cases h : pl e.1 <;>
      simp [List.filterMap_cons, h, List.reduceOption, ih]

/-! Claim theorems. -/

/-- C9: constructing the persisted store with a zero or negative TTL value
raises an error at construction time, and constructing it with no TTL value
configures a default retention window of three days (259200 seconds). -/
theorem claim9_init_ttl_validation_and_default :
    (∀ t : Int, t ≤ 0 → RedisUndeliveredQueue.init (some t) =
      Except.error "Time to live must be a positive integer") ∧
    RedisUndeliveredQueue.init none = Except.ok 259200 := by
  constructor
  · intro t ht
    simp [RedisUndeliveredQueue.init, if_pos ht]
  · rfl

/-- Witness for C9: a zero TTL is rejected at construction time. -/
theorem claim9_init_ttl_validation_and_default_witness :
    RedisUndeliveredQueue.init (some 0) =
      Except.error "Time to live must be a positive integer" :=
  claim9_init_ttl_validation_and_default.1 0 (by decide)

/-- C7: a DeliveryRequest or MessagesReceived whose transport decorator is
absent or whose return route is not "all" makes the handler fail with a
HandlerException (modelled as the error branch), producing no reply and no
store mutation. -/
theorem claim7_missing_return_route_rejected (identFn : Msg → Ident)
    (dreq : DeliveryRequest) (mreq : MessagesReceived) (key : String)
    (s : RedisState) (ttl now : Nat)
    (hd : returnRouteOk dreq.transport = false)
    (hm : returnRouteOk mreq.transport = false) :
    DeliveryRequest.handle identFn dreq key s ttl now =
      Except.error
        "DeliveryRequest must have transport decorator with return route set to all" ∧
    MessagesReceived.handle mreq key s ttl now =
      Except.error
        "MessageReceived must have transport decorator with return route set to all" := by
  constructor
  · simp [DeliveryRequest.handle, hd]
  · simp [MessagesReceived.handle, hm]

/-- Witness for C7: both handlers reject a request with no transport
decorator at all. -/
theorem claim7_missing_return_route_rejected_witness :
    DeliveryRequest.handle sampleIdent
      (DeliveryRequest.mk 1 none none "th") "k" emptyState 10 0 =
        Except.error
          "DeliveryRequest must have transport decorator with return route set to all" ∧
    MessagesReceived.handle (MessagesReceived.mk [] none "th") "k"
      emptyState 10 0 =
        Except.error
          "MessageReceived must have transport decorator with return route set to all" :=
  claim7_missing_return_route_rejected sampleIdent
    (DeliveryRequest.mk 1 none none "th") (MessagesReceived.mk [] none "th")
    "k" emptyState 10 0 rfl rfl

/-- C1 is violated by the code: the payload table is keyed by the bare
message identifier, so acknowledging a payload under key "k1" deletes the
payload shared with key "k2".  Before the removal, "k2" sees its message;
after a removal addressed only to "k1", the index-based observations of "k2"
(has, count) are unchanged but its bounded fetch silently becomes empty. -/
theorem claim1_remove_under_one_key_breaks_other_key_reads :
    (RedisUndeliveredQueue.get_messages_for_key twoKeyState "k2" 1 10 0).1 =
      ["m"] ∧
    (RedisUndeliveredQueue.get_messages_for_key twoKeyRemoved "k2" 1 10 0).1 =
      [] ∧
    (RedisUndeliveredQueue.has_message_for_key twoKeyRemoved "k2" 10 0).1 =
      true ∧
    (RedisUndeliveredQueue.message_count_for_key twoKeyRemoved "k2" 10 0).1 =
      1 :=
  ⟨by decide, by decide, by decide, by decide⟩

/-- C2 is refuted on the full fetch: for an index entry whose payload lookup
returns nothing, inspect_all_messages_for_key returns a none placeholder in
the result instead of dropping the identifier, while get_messages_for_key
(here with count 0, which selects the whole range) does drop it. -/
theorem claim2_inspect_keeps_none_placeholder :
    (RedisUndeliveredQueue.inspect_all_messages_for_key danglingState "k"
      10 0).1 = [none] ∧
    (RedisUndeliveredQueue.inspect_all_messages_for_key danglingState "k"
      10 0).1 ≠ [] ∧
    (RedisUndeliveredQueue.get_messages_for_key danglingState "k" 0 10 0).1 =
      [] :=
  ⟨by decide, by decide, by decide⟩

/-- C3 is refuted at limit 0: get_messages_for_key with count 0 issues
ZRANGE key 0 -1 and therefore returns every message, so the length bound
"at most N" fails at N = 0 on a mailbox holding two messages. -/
theorem claim3_limit_zero_returns_all :
    (RedisUndeliveredQueue.get_messages_for_key twoMsgState "k" 0 10 1).1 =
      ["a", "b"] ∧
    ¬ (((RedisUndeliveredQueue.get_messages_for_key twoMsgState "k"
      0 10 1).1.length : Int) ≤ 0) :=
  ⟨by decide, by decide⟩

/-- C10: a reachable store state (obtained here by enqueueing one payload
under "k1" and "k2" and acknowledging it under "k1") makes
has_message_for_key report true for "k2" while get_messages_for_key returns
the empty sequence for every limit, so a well-formed DeliveryRequest yields
a Delivery reply whose attachment list is empty instead of a zero-count
Status reply. -/
theorem claim10_phantom_has_with_empty_delivery :
    (RedisUndeliveredQueue.has_message_for_key twoKeyRemoved "k2" 10 0).1 =
      true ∧
    (∀ n : Int,
      (RedisUndeliveredQueue.get_messages_for_key twoKeyRemoved "k2" n
        10 0).1 = []) ∧
    DeliveryRequest.handle sampleIdent
        (DeliveryRequest.mk 5 none (some (Transport.mk "all")) "th") "k2"
        twoKeyRemoved 10 0 =
      Except.ok (Reply.delivery none [] "th", twoKeyRemoved) := by
  have h0 : RedisUndeliveredQueue.expire_helper twoKeyRemoved "k2" 10 0 =
      twoKeyRemoved := expire_helper_of_empty (by decide)
  have h1 : twoKeyRemoved.index "k2" = [("m", 0)] := by decide
  refine ⟨by decide, ?_, by rfl⟩
  intro n
  show ((zrange ((RedisUndeliveredQueue.expire_helper twoKeyRemoved "k2"
      10 0).index "k2") 0 (n - 1)).map
      (RedisUndeliveredQueue.expire_helper twoKeyRemoved "k2"
        10 0).payload).reduceOption = []
  rw [h0, h1]
  unfold zrange
  rcases List.sublist_singleton.mp
      (zrangeEntries_sublist [("m", 0)] 0 (n - 1)) with hc | hc <;>
    rw [hc] <;> decide

/-- C5: enqueueing the same payload twice under one key leaves exactly one
index entry whose score is the first enqueue time (the second add does not
reset the score), and the message count over a fresh mailbox is 1. -/
theorem claim5_duplicate_add_dedup_preserves_score (identFn : Msg → Ident)
    (s : RedisState) (k : String) (m : Msg) (T T2 S now : Nat)
    (h0 : s.index k = []) (hnow : now < T + S) :
    (RedisUndeliveredQueue.add_message identFn
        (RedisUndeliveredQueue.add_message identFn s k m T) k m T2).index k =
      [(identFn m, T)] ∧
    (RedisUndeliveredQueue.message_count_for_key
        (RedisUndeliveredQueue.add_message identFn
          (RedisUndeliveredQueue.add_message identFn s k m T) k m T2)
        k S now).1 = 1 := by
  have h1 : (RedisUndeliveredQueue.add_message identFn s k m T).index k =
      [(identFn m, T)] := by
    unfold RedisUndeliveredQueue.add_message
    dsimp only
    rw [if_pos rfl, h0]
    rfl
  have h2 : (RedisUndeliveredQueue.add_message identFn
      (RedisUndeliveredQueue.add_message identFn s k m T) k m T2).index k =
      [(identFn m, T)] := by
    conv_lhs => rw [RedisUndeliveredQueue.add_message]
    dsimp only
    rw [if_pos rfl, h1, zaddNX, if_pos (by simp)]
  refine ⟨h2, ?_⟩
  have hemp : zrangeByScore [(identFn m, T)] 0 ((now : Int) - (S : Int)) =
      [] := by
    rw [zrangeByScore, List.map_eq_nil_iff, List.filter_eq_nil_iff]
    intro e he
    simp only [List.mem_singleton] at he
    subst he
    simp only [Bool.and_eq_true, decide_eq_true_eq, not_and]
    intro _
    omega
  unfold RedisUndeliveredQueue.message_count_for_key
  dsimp only
  rw [expire_helper_of_empty (by rw [h2]; exact hemp), h2]
  rfl

/-- Witness for C5: concrete double add of "m" under "k" at times 0 and 5,
read at time 3 with TTL 10. -/
theorem claim5_duplicate_add_dedup_preserves_score_witness :
    (RedisUndeliveredQueue.add_message sampleIdent
        (RedisUndeliveredQueue.add_message sampleIdent emptyState "k" "m" 0)
        "k" "m" 5).index "k" = [("m", 0)] ∧
    (RedisUndeliveredQueue.message_count_for_key
        (RedisUndeliveredQueue.add_message sampleIdent
          (RedisUndeliveredQueue.add_message sampleIdent emptyState "k" "m" 0)
          "k" "m" 5) "k" 10 3).1 = 1 :=
  claim5_duplicate_add_dedup_preserves_score sampleIdent emptyState "k" "m"
    0 5 10 3 rfl (by decide)

/-- C6: remove_messages_for_key strikes exactly the identifiers that are
both supplied and present in the key's reconciled index (absent identifiers
are ignored without error), and repeating the call with the same identifier
set changes nothing. -/
theorem claim6_remove_exact_and_idempotent (s : RedisState) (k : String)
    (ids : List Ident) (S now : Nat) :
    (∀ i : Ident, ∀ sc : Nat,
      ((i, sc) ∈
          (RedisUndeliveredQueue.remove_messages_for_key s k ids S
            now).index k ↔
        ((i, sc) ∈ (RedisUndeliveredQueue.expire_helper s k S now).index k ∧
          i ∉ ids))) ∧
    RedisUndeliveredQueue.remove_messages_for_key
        (RedisUndeliveredQueue.remove_messages_for_key s k ids S now) k ids
        S now =
      RedisUndeliveredQueue.remove_messages_for_key s k ids S now := by
  have hchar : ∀ i : Ident, ∀ sc : Nat,
      ((i, sc) ∈
          (RedisUndeliveredQueue.remove_messages_for_key s k ids S
            now).index k ↔
        ((i, sc) ∈ (RedisUndeliveredQueue.expire_helper s k S now).index k ∧
          i ∉ ids)) := by
    intro i sc
    rw [index_remove, mem_zremList]
    constructor
    · rintro ⟨hmem, hnin⟩
      refine ⟨hmem, fun hid => hnin ?_⟩
      refine List.mem_filter.mpr ⟨?_, by simpa using hid⟩
      rw [zrange_full]
      exact List.mem_map_of_mem Prod.fst hmem
    · rintro ⟨hmem, hnid⟩
      refine ⟨hmem, fun hin => hnid ?_⟩
      simpa using (List.mem_filter.mp hin).2
  refine ⟨hchar, ?_⟩
  have hmemR : ∀ e : Ident × Nat,
      e ∈ (RedisUndeliveredQueue.remove_messages_for_key s k ids S
        now).index k →
      e ∈ (RedisUndeliveredQueue.expire_helper s k S now).index k ∧
        e.1 ∉ ids := by
    intro e he
    have h := hchar e.1 e.2
    rw [Prod.mk.eta] at h
    exact h.mp he
  have hsw : RedisUndeliveredQueue.expire_helper
      (RedisUndeliveredQueue.remove_messages_for_key s k ids S now) k S
      now = RedisUndeliveredQueue.remove_messages_for_key s k ids S now := by
    apply expire_helper_of_empty
    rw [zrangeByScore, List.map_eq_nil_iff, List.filter_eq_nil_iff]
    intro e he
    have hsc := (mem_index_expire_helper (hmemR e he).1).2
    simp only [Bool.and_eq_true, decide_eq_true_eq, not_and]
    intro _
    omega
  have hempinter : (zrange
      ((RedisUndeliveredQueue.remove_messages_for_key s k ids S
        now).index k) 0 (-1)).filter (fun i => ids.contains i) = [] := by
    rw [List.filter_eq_nil_iff]
    intro i hi
    rw [zrange_full] at hi
    obtain ⟨e, hmem, rfl⟩ := List.mem_map.mp hi
    simpa using (hmemR e hmem).2
  exact remove_eq_of_noop hsw hempinter

/-- Witness for C6 at a concrete state: the acknowledged identifier is gone
from the index, and a second identical removal is a no-op. -/
theorem claim6_remove_exact_and_idempotent_witness :
    (("m", 0) ∈
        (RedisUndeliveredQueue.remove_messages_for_key twoKeyState "k1"
          ["m"] 10 0).index "k1" ↔
      (("m", 0) ∈
          (RedisUndeliveredQueue.expire_helper twoKeyState "k1" 10
            0).index "k1" ∧
        "m" ∉ (["m"] : List Ident))) ∧
    RedisUndeliveredQueue.remove_messages_for_key
        (RedisUndeliveredQueue.remove_messages_for_key twoKeyState "k1"
          ["m"] 10 0) "k1" ["m"] 10 0 =
      RedisUndeliveredQueue.remove_messages_for_key twoKeyState "k1" ["m"]
        10 0 :=
  ⟨(claim6_remove_exact_and_idempotent twoKeyState "k1" ["m"] 10 0).1 "m" 0,
    (claim6_remove_exact_and_idempotent twoKeyState "k1" ["m"] 10 0).2⟩

/-- C8: a MessagesReceived request satisfying the return-route precondition
always produces exactly one Status reply whose message_count is the
non-expired message count of the resulting store state for the sender key,
with the thread identifier copied from the request. -/
theorem claim8_messages_received_status_reports_final_count
    (mreq : MessagesReceived) (key : String) (s : RedisState) (S now : Nat)
    (h : returnRouteOk mreq.transport = true) :
    ∃ s3, MessagesReceived.handle mreq key s S now =
      Except.ok (Reply.status none
        (RedisUndeliveredQueue.message_count_for_key s3 key S now).1
        mreq.thread, s3) := by
  refine ⟨(RedisUndeliveredQueue.message_count_for_key
      (if (RedisUndeliveredQueue.has_message_for_key s key S now).1 then
        RedisUndeliveredQueue.remove_messages_for_key
          (RedisUndeliveredQueue.has_message_for_key s key S now).2 key
          mreq.message_id_list S now
      else (RedisUndeliveredQueue.has_message_for_key s key S now).2)
      key S now).2, ?_⟩
  unfold MessagesReceived.handle
  rw [if_pos h]
  dsimp only
  rw [message_count_stable]

/-- Witness for C8: the handler accepts a concrete all-return-route request
and answers with an ok reply. -/
theorem claim8_messages_received_status_reports_final_count_witness :
    (MessagesReceived.handle
      (MessagesReceived.mk ["x"] (some (Transport.mk "all")) "th") "k"
      emptyState 10 0).isOk = true := by
  obtain ⟨s3, heq⟩ := claim8_messages_received_status_reports_final_count
    (MessagesReceived.mk ["x"] (some (Transport.mk "all")) "th") "k"
    emptyState 10 0 rfl
  rw [heq]
  rfl

/-- C2 amended: the bounded fetch get_messages_for_key silently drops every
identifier whose payload lookup returns nothing (its length is the number of
range identifiers with a present payload), while the full fetch
inspect_all_messages_for_key keeps a none placeholder for each such
identifier: its length always equals the reconciled index length, and a
none entry appears exactly when some indexed identifier has no payload. -/
theorem claim2_get_drops_missing_inspect_keeps_placeholders (s : RedisState)
    (k : String) (S now : Nat) (n : Int) :
    (RedisUndeliveredQueue.inspect_all_messages_for_key s k S now).1.length =
      ((RedisUndeliveredQueue.expire_helper s k S now).index k).length ∧
    (none ∈ (RedisUndeliveredQueue.inspect_all_messages_for_key s k S
        now).1 ↔
      ∃ i : Ident,
        i ∈ zrange ((RedisUndeliveredQueue.expire_helper s k S now).index k)
          0 (-1) ∧
        (RedisUndeliveredQueue.expire_helper s k S now).payload i = none) ∧
    (RedisUndeliveredQueue.get_messages_for_key s k n S now).1.length =
      ((zrange ((RedisUndeliveredQueue.expire_helper s k S now).index k) 0
        (n - 1)).filter
        (fun i =>
          ((RedisUndeliveredQueue.expire_helper s k S now).payload
            i).isSome)).length := by
  refine ⟨?_, ?_, ?_⟩
  · unfold RedisUndeliveredQueue.inspect_all_messages_for_key
    dsimp only
    rw [zrange_full]
    by_cases hemp : (((RedisUndeliveredQueue.expire_helper s k S
        now).index k).map Prod.fst).isEmpty
    · rw [if_pos hemp]
      rw [List.isEmpty_iff, List.map_eq_nil_iff] at hemp
      rw [hemp]
      rfl
    · rw [if_neg hemp]
      rw [List.length_map, List.length_map]
  · unfold RedisUndeliveredQueue.inspect_all_messages_for_key
    dsimp only
    rw [zrange_full]
    by_cases hemp : (((RedisUndeliveredQueue.expire_helper s k S
        now).index k).map Prod.fst).isEmpty
    · rw [if_pos hemp]
      rw [List.isEmpty_iff, List.map_eq_nil_iff] at hemp
      rw [hemp]
      simp
    · rw [if_neg hemp]
      simp only [List.mem_map]
  · unfold RedisUndeliveredQueue.get_messages_for_key
    dsimp only
    rw [List.reduceOption_length_eq, List.filter_map, List.length_map]
    rfl

/-- Witness for C2 at a concrete dangling-index state: the inspect result
keeps a placeholder (so its length matches the index), and the bounded
fetch drops the identifier. -/
theorem claim2_get_drops_missing_inspect_keeps_placeholders_witness :
    (RedisUndeliveredQueue.inspect_all_messages_for_key danglingState "k"
      10 0).1.length =
      ((RedisUndeliveredQueue.expire_helper danglingState "k" 10
        0).index "k").length ∧
    none ∈ (RedisUndeliveredQueue.inspect_all_messages_for_key danglingState
      "k" 10 0).1 ∧
    (RedisUndeliveredQueue.get_messages_for_key danglingState "k" 0 10
      0).1.length =
      ((zrange ((RedisUndeliveredQueue.expire_helper danglingState "k" 10
        0).index "k") 0 (0 - 1)).filter
        (fun i =>
          ((RedisUndeliveredQueue.expire_helper danglingState "k" 10
            0).payload i).isSome)).length :=
  ⟨(claim2_get_drops_missing_inspect_keeps_placeholders danglingState "k"
      10 0 0).1,
    (claim2_get_drops_missing_inspect_keeps_placeholders danglingState "k"
      10 0 0).2.1.mpr ⟨"i", by decide, by decide⟩,
    (claim2_get_drops_missing_inspect_keeps_placeholders danglingState "k"
      10 0 0).2.2⟩

/-- C3 amended (limits of at least 1): get_messages_for_key returns at most
N messages, at most the current non-expired count, and the returned
sequence carries non-decreasing enqueue scores taken from the reconciled
index, oldest first. -/
theorem claim3_get_messages_ordered_and_bounded (s : RedisState)
    (k : String) (N : Int) (S now : Nat) (hN : 1 ≤ N)
    (hsorted : (s.index k).Pairwise (fun a b => a.2 ≤ b.2)) :
    ((RedisUndeliveredQueue.get_messages_for_key s k N S now).1.length :
      Int) ≤ N ∧
    (RedisUndeliveredQueue.get_messages_for_key s k N S now).1.length ≤
      (RedisUndeliveredQueue.message_count_for_key s k S now).1 ∧
    ∃ ps : List (Msg × Nat),
      (RedisUndeliveredQueue.get_messages_for_key s k N S now).1 =
        ps.map Prod.fst ∧
      ps.Pairwise (fun a b => a.2 ≤ b.2) ∧
      ∀ p ∈ ps, ∃ i : Ident,
        (i, p.2) ∈ (RedisUndeliveredQueue.expire_helper s k S now).index k ∧
        (RedisUndeliveredQueue.expire_helper s k S now).payload i =
          some p.1 := by
  have hres : (RedisUndeliveredQueue.get_messages_for_key s k N S now).1 =
      ((zrangeEntries ((RedisUndeliveredQueue.expire_helper s k S
        now).index k) 0 (N - 1)).map
        (fun e => (RedisUndeliveredQueue.expire_helper s k S now).payload
          e.1)).reduceOption := by
    unfold RedisUndeliveredQueue.get_messages_for_key zrange
    dsimp only
    rw [List.map_map]
    rfl
  have hsorted1 : ((RedisUndeliveredQueue.expire_helper s k S
      now).index k).Pairwise (fun a b => a.2 ≤ b.2) :=
    List.Pairwise.sublist (index_expire_helper_sublist s k S now) hsorted
  have hEsub := zrangeEntries_sublist
    ((RedisUndeliveredQueue.expire_helper s k S now).index k) 0 (N - 1)
  have hsortedE := List.Pairwise.sublist hEsub hsorted1
  have hlenE : ((zrangeEntries ((RedisUndeliveredQueue.expire_helper s k S
      now).index k) 0 (N - 1)).length : Int) ≤ N := by
    rw [zrangeEntries_zero _ _ (by omega),
      show (N - 1 + 1 : Int) = N by omega]
    rw [List.length_take]
    have h1 : (min N (((RedisUndeliveredQueue.expire_helper s k S
        now).index k).length : Int)).toNat ≤ N.toNat :=
      Int.toNat_le_toNat (min_le_left _ _)
    omega
  have hlenr : (RedisUndeliveredQueue.get_messages_for_key s k N S
      now).1.length ≤ (zrangeEntries ((RedisUndeliveredQueue.expire_helper
        s k S now).index k) 0 (N - 1)).length := by
    rw [hres]
    exact le_trans (List.reduceOption_length_le _) (le_of_eq
      (List.length_map _ _))
  refine ⟨?_, ?_, ?_⟩
  · omega
  · have hcount : (RedisUndeliveredQueue.message_count_for_key s k S
        now).1 = ((RedisUndeliveredQueue.expire_helper s k S
        now).index k).length := rfl
    rw [hcount]
    exact le_trans hlenr (List.Sublist.length_le hEsub)
  · refine ⟨(zrangeEntries ((RedisUndeliveredQueue.expire_helper s k S
      now).index k) 0 (N - 1)).filterMap
      (fun e => ((RedisUndeliveredQueue.expire_helper s k S now).payload
        e.1).map (fun mm => (mm, e.2))), ?_, ?_, ?_⟩
    · rw [hres]
      exact (map_fst_filterMap_payload _ _).symm
    · refine List.Pairwise.filterMap _ ?_ hsortedE
      intro a b hab x hx y hy
      rcases Option.map_eq_some'.mp hx with ⟨ma, _, hxa⟩
      rcases Option.map_eq_some'.mp hy with ⟨mb, _, hyb⟩
      rw [← hxa, ← hyb]
      exact hab
    · intro p hp
      rcases List.mem_filterMap.mp hp with ⟨e, heE, hfe⟩
      rcases Option.map_eq_some'.mp hfe with ⟨mm, hpl, hpe⟩
      refine ⟨e.1, ?_, ?_⟩
      · rw [← hpe]
        dsimp only
        rw [Prod.mk.eta]
        exact hEsub.subset heE
      · rw [← hpe]
        exact hpl

/-- Witness for C3 at a concrete two-message mailbox with limit 1. -/
theorem claim3_get_messages_ordered_and_bounded_witness :
    ((RedisUndeliveredQueue.get_messages_for_key twoMsgState "k" 1 10
      1).1.length : Int) ≤ 1 ∧
    (RedisUndeliveredQueue.get_messages_for_key twoMsgState "k" 1 10
      1).1.length ≤
      (RedisUndeliveredQueue.message_count_for_key twoMsgState "k" 10 1).1 :=
  ⟨(claim3_get_messages_ordered_and_bounded twoMsgState "k" 1 10 1
      (by decide) (by decide)).1,
    (claim3_get_messages_ordered_and_bounded twoMsgState "k" 1 10 1
      (by decide) (by decide)).2.1⟩

/-- C4: a message enqueued at time T into a mailbox whose prior entries are
no newer than T reports absent from every read performed at time at least
T + S: its identifier is swept from the index, the bounded fetch never
returns it, and over a previously empty mailbox the existence check is
false and the count zero. -/
theorem claim4_expired_message_absent_from_reads (identFn : Msg → Ident)
    (s : RedisState) (k : String) (m : Msg) (T S now : Nat) (n : Int)
    (hcoh : Coherent identFn s)
    (hsc : ∀ sc : Nat, (identFn m, sc) ∈ s.index k → sc ≤ T)
    (hnow : T + S ≤ now) :
    (∀ e ∈ (RedisUndeliveredQueue.expire_helper
        (RedisUndeliveredQueue.add_message identFn s k m T) k S now).index k,
      e.1 ≠ identFn m) ∧
    m ∉ (RedisUndeliveredQueue.get_messages_for_key
        (RedisUndeliveredQueue.add_message identFn s k m T) k n S now).1 ∧
    (s.index k = [] →
      (RedisUndeliveredQueue.has_message_for_key
          (RedisUndeliveredQueue.add_message identFn s k m T) k S now).1 =
        false ∧
      (RedisUndeliveredQueue.message_count_for_key
          (RedisUndeliveredQueue.add_message identFn s k m T) k S now).1 =
        0) := by
  set s1 := RedisUndeliveredQueue.add_message identFn s k m T with hs1def
  have hidx1 : s1.index k = zaddNX (s.index k) (identFn m) T := by
    rw [hs1def]
    unfold RedisUndeliveredQueue.add_message
    dsimp only
    rw [if_pos rfl]
  have hsc1 : ∀ sc : Nat, (identFn m, sc) ∈ s1.index k → sc ≤ T := by
    intro sc hmem
    rw [hidx1] at hmem
    rcases mem_zaddNX hmem with hh | hh
    · exact hsc sc hh
    · have := congrArg Prod.snd hh
      dsimp only at this
      omega
  have hmain : ∀ e ∈ (RedisUndeliveredQueue.expire_helper s1 k S
      now).index k, e.1 ≠ identFn m := by
    intro e he heq
    obtain ⟨hmem, hgt⟩ := mem_index_expire_helper he
    have hle : e.2 ≤ T := by
      apply hsc1 e.2
      rw [← heq, Prod.mk.eta]
      exact hmem
    omega
  refine ⟨hmain, ?_, ?_⟩
  · intro hmem
    have hres : (RedisUndeliveredQueue.get_messages_for_key s1 k n S
        now).1 = ((zrange ((RedisUndeliveredQueue.expire_helper s1 k S
          now).index k) 0 (n - 1)).map
          (RedisUndeliveredQueue.expire_helper s1 k S now).payload
          ).reduceOption := rfl
    rw [hres] at hmem
    obtain ⟨i, hi, hpay⟩ := List.mem_map.mp
      (List.reduceOption_mem_iff.mp hmem)
    rw [payload_expire_helper] at hpay
    have hpay1 : s1.payload i =
        if i = identFn m then some m else s.payload i := by
      rw [hs1def]
      unfold RedisUndeliveredQueue.add_message
      dsimp only
    by_cases hik : i = identFn m
    · rw [zrange] at hi
      obtain ⟨e, heE, hefst⟩ := List.mem_map.mp hi
      have heL : e ∈ (RedisUndeliveredQueue.expire_helper s1 k S
          now).index k := (zrangeEntries_sublist _ _ _).subset heE
      exact hmain e heL (by rw [hefst, hik])
    · rw [hpay1, if_neg hik] at hpay
      exact hik (hcoh i m hpay).symm
  · intro h0
    have hidx1' : s1.index k = [(identFn m, T)] := by
      rw [hidx1, h0]
      rfl
    have hswept : (RedisUndeliveredQueue.expire_helper s1 k S now).index k =
        [] := by
      have hc : (decide ((0 : Int) ≤ ((T : Nat) : Int)) &&
          decide (((T : Nat) : Int) ≤ (now : Int) - (S : Int))) = true := by
        simp only [Bool.and_eq_true, decide_eq_true_eq]
        exact ⟨by omega, by omega⟩
      have hexp : zrangeByScore (s1.index k) 0 ((now : Int) - (S : Int)) =
          [identFn m] := by
        rw [hidx1']
        simp only [zrangeByScore, List.filter_cons, List.filter_nil]
        rw [if_pos hc]
        rfl
      unfold RedisUndeliveredQueue.expire_helper
      dsimp only
      rw [hexp]
      rw [if_neg (by simp)]
      dsimp only
      rw [if_pos rfl, hidx1']
      simp [zremList]
    constructor
    · show (!(zrange ((RedisUndeliveredQueue.expire_helper s1 k S
        now).index k) 0 0).isEmpty) = false
      rw [hswept]
      rfl
    · show ((RedisUndeliveredQueue.expire_helper s1 k S now).index
        k).length = 0
      rw [hswept]
      rfl

/-- Witness for C4: "m" enqueued at time 0 with TTL 1 is invisible to all
reads at time 1. -/
theorem claim4_expired_message_absent_from_reads_witness :
    "m" ∉ (RedisUndeliveredQueue.get_messages_for_key
      (RedisUndeliveredQueue.add_message sampleIdent emptyState "k" "m" 0)
      "k" 1 1 1).1 ∧
    (RedisUndeliveredQueue.has_message_for_key
      (RedisUndeliveredQueue.add_message sampleIdent emptyState "k" "m" 0)
      "k" 1 1).1 = false ∧
    (RedisUndeliveredQueue.message_count_for_key
      (RedisUndeliveredQueue.add_message sampleIdent emptyState "k" "m" 0)
      "k" 1 1).1 = 0 := by
  have h := claim4_expired_message_absent_from_reads sampleIdent emptyState
    "k" "m" 0 1 1 1 (fun i mm hh => nomatch hh) (fun sc hh => nomatch hh)
    (by decide)
  exact ⟨h.2.1, (h.2.2 rfl).1, (h.2.2 rfl).2⟩

end Pickup
